import Mathlib

/-!
Verification development for the topoplot renderer (topoplot_tools.py, main.py).

The Python code is shallowly embedded: float arithmetic is modelled over the
real numbers, Python dictionaries (per-electrode records keyed by CSV header
names) as association lists with first-match lookup where inserting prepends,
the CSV file after delimiter or header sniffing and cell parsing as a record
of a header flag, a header list and rows of already-classified cells, and
images by their pixel dimensions (the only attribute the placement logic
reads).  numpy's astype(int) and Python's int() truncate toward zero, which
truncInt mirrors.
-/

namespace Topoplot

/-- A CSV cell after the float-or-string parse at topoplot_tools.py lines
63-66: float(cell) on success, the raw string otherwise. -/
inductive Value where
  | num : ℝ → Value
  | str : String → Value

/-- A per-electrode dictionary: keys are header names.  Insertion prepends
and lookup takes the first match, so a later insertion overwrites, matching
Python dict assignment. -/
abbrev Record := List (String × Value)

/-- Dictionary read, d[k] as an Option. -/
def rget (r : Record) (k : String) : Option Value := List.lookup k r

/-- Dictionary write, d[k] = v. -/
def rset (r : Record) (k : String) (v : Value) : Record := (k, v) :: r

/-- Membership test, k in d. -/
def hasKey (r : Record) (k : String) : Bool := (rget r k).isSome

/-- A position file as seen after csv.Sniffer and cell parsing: whether a
header row was detected, the header row, and the data rows (cells already
run through the float-or-string parse). -/
structure CsvFile where
  hasHeader : Bool
  headers : List String
  rows : List (List Value)

/-- Lines 53-56: enumerate headers and keep the (index, name) pairs whose
name is non-empty. -/
def headerTuples (headers : List String) : List (Nat × String) :=
  headers.enum.filter (fun p => p.2 != "")

/-- Lines 60-67: build one electrode dictionary from a data row, inserting
row[ix] under each retained header name in order. -/
def buildRecord (hts : List (Nat × String)) (row : List Value) : Record :=
  hts.foldl (fun d ht => rset d ht.2 (row.getD ht.1 (Value.str ""))) []

/-- Two-argument arctangent with numpy's argument order:
atan2 a b is the angle of the point (b, a), i.e. arg (b + a*I). -/
noncomputable def atan2 (a b : ℝ) : ℝ := Complex.arg ⟨b, a⟩

/-- Numeric field read used by the Cartesian conversion and the rendering
loops (the Python indexes the dict directly; a missing or non-numeric field
makes the Python crash, which is outside the modelled domain, so the
embedding totalizes with 0). -/
def getNumD (r : Record) (k : String) : ℝ :=
  match rget r k with
  | some (Value.num a) => a
  | _ => 0

/-- Lines 77-89: Cartesian (X, Y, Z) to spherical fields for one record.
sph_theta is written only for the two known axis conventions; sph_phi and
sph_radius are written unconditionally. -/
noncomputable def convertCart (xyz_format : String) (r : Record) : Record :=
  let x := getNumD r "X"
  let y := getNumD r "Y"
  let z := getNumD r "Z"
  let r_xy := Real.sqrt (x ^ 2 + y ^ 2)
  let r1 :=
    if xyz_format = "default" then
      rset r "sph_theta" (Value.num (atan2 x y * 180 / Real.pi))
    else if xyz_format = "EEGLab" then
      rset r "sph_theta" (Value.num (atan2 y x * 180 / Real.pi))
    else r
  let r2 := rset r1 "sph_phi" (Value.num (atan2 z r_xy * 180 / Real.pi))
  rset r2 "sph_radius" (Value.num 1)

/-- Outcome of read_csv_position: a returned list, the two paths that
return None (the printed no-header exit at lines 46-48 and falling off the
end when no column set is recognized), and the IndexError raised by
info_electrodes[0] at line 70 when there are no data rows. -/
inductive ReadResult where
  | ok : List Record → ReadResult
  | none_result : ReadResult
  | index_error : ReadResult

/-- Lines 39-90: read_csv_position after the CSV layer.  Detects the
spherical column set first, defaulting sph_radius to 1 when absent, else the
Cartesian set, else returns None. -/
noncomputable def read_csv_position (file : CsvFile) (xyz_format : String) :
    ReadResult :=
  if file.hasHeader = false then ReadResult.none_result
  else
    let hts := headerTuples file.headers
    let info := file.rows.map (buildRecord hts)
    match info with
    | [] => ReadResult.index_error
    | first :: _ =>
      if hasKey first "sph_phi" && hasKey first "sph_theta" then
        if !(hasKey first "sph_radius") then
          ReadResult.ok (info.map (fun r => rset r "sph_radius" (Value.num 1)))
        else ReadResult.ok info
      else if hasKey first "X" && hasKey first "Y" && hasKey first "Z" then
        ReadResult.ok (info.map (convertCart xyz_format))
      else ReadResult.none_result

/-- The record list a successful read returns ([] on the failure paths). -/
def okRecords : ReadResult → List Record
  | ReadResult.ok l => l
  | _ => []

/-- Lines 143-161: pol2cart. tr is the (theta_degrees, radius) pair, c the
center; angle 0 points up after the 90-degree shift. -/
noncomputable def pol2cart (tr : ℝ × ℝ) (c : ℝ × ℝ) : ℝ × ℝ :=
  (tr.2 * Real.cos ((tr.1 - 90) * Real.pi / 180) + c.1,
   tr.2 * Real.sin ((tr.1 - 90) * Real.pi / 180) + c.2)

/-- numpy astype(int) and Python int(): truncation toward zero. -/
noncomputable def truncInt (x : ℝ) : ℤ := if 0 ≤ x then ⌊x⌋ else ⌈x⌉

/-- Line 215: canvas_size = int(2.5 * head_radius_pxs) in each dimension. -/
noncomputable def canvas_size (h : ℝ) : ℤ × ℤ :=
  (truncInt (2.5 * h), truncInt (2.5 * h))

/-- Line 216: canvas_center = int(0.5 * canvas_size) elementwise. -/
noncomputable def canvas_center (h : ℝ) : ℤ × ℤ :=
  (truncInt (0.5 * ((canvas_size h).1 : ℝ)),
   truncInt (0.5 * ((canvas_size h).2 : ℝ)))

/-- Lines 253 and 258: canvas point of one electrode, pol2cart of
(sph_theta, head_radius * sph_radius * cos(sph_phi * pi / 180)) about the
canvas center. -/
noncomputable def electrode_point (h : ℝ) (r : Record) : ℝ × ℝ :=
  pol2cart
    (getNumD r "sph_theta",
     h * getNumD r "sph_radius" * Real.cos (getNumD r "sph_phi" * Real.pi / 180))
    (((canvas_center h).1 : ℝ), ((canvas_center h).2 : ℝ))

/-- Lines 252-254: the marker pass computes a point for every electrode
record (a 10px dot is drawn at each). -/
noncomputable def marker_points (h : ℝ) (info : List Record) : List (ℝ × ℝ) :=
  info.map (electrode_point h)

/-- Line 265: crop box (L, T, width - R, height - D) from the [L, T, R, D]
margin list and the source size. -/
def crop_box (crop : List ℤ) (size : ℤ × ℤ) : ℤ × ℤ × ℤ × ℤ :=
  (0 + crop.getD 0 0, 0 + crop.getD 1 0,
   size.1 - crop.getD 2 0, size.2 - crop.getD 3 0)

/-- Size of the image PIL's crop produces from a box:
(right - left, lower - upper). -/
def cropped_size (box : ℤ × ℤ × ℤ × ℤ) : ℤ × ℤ :=
  (box.2.2.1 - box.1, box.2.2.2 - box.2.1)

/-- Lines 262-269: the dimensions of one pasted image after the optional
crop (when the margin list is non-empty) and the optional resize (when the
scale differs from 1, int(w * scale) in each dimension). -/
noncomputable def processed_size (crop : List ℤ) (scale : ℝ) (size : ℤ × ℤ) :
    ℤ × ℤ :=
  let s1 := if crop = [] then size else cropped_size (crop_box crop size)
  if scale = 1 then s1
  else (truncInt ((s1.1 : ℝ) * scale), truncInt ((s1.2 : ℝ) * scale))

/-- Lines 180-184: the paste box of draw_paste, centering an image of the
given size at the (truncated) point. -/
noncomputable def paste_box (p : ℝ × ℝ) (size : ℤ × ℤ) : ℤ × ℤ × ℤ × ℤ :=
  (truncInt p.1 - size.1 / 2, truncInt p.2 - size.2 / 2,
   truncInt p.1 - size.1 / 2 + size.1, truncInt p.2 - size.2 / 2 + size.2)

/-- Lines 256-271: the compositing pass zips electrode records with image
sizes and computes one paste box per pair. -/
noncomputable def pasted_boxes (h : ℝ) (info : List Record)
    (imgs : List (ℤ × ℤ)) (scale : ℝ) (crop : List ℤ) :
    List (ℤ × ℤ × ℤ × ℤ) :=
  (info.zip imgs).map
    (fun p => paste_box (electrode_point h p.1) (processed_size crop scale p.2))

/-- Lines 188-276: the observable outcome of plot_in_topoplot at the
position level: when read_csv_position does not return a record list the
run aborts (iterating None raises) before any output is saved; otherwise
the output file is written with the computed paste boxes. -/
noncomputable def plot_in_topoplot (h : ℝ) (file : CsvFile)
    (imgs : List (ℤ × ℤ)) (xyz_format : String) (output_filename : String)
    (scale : ℝ) (crop : List ℤ) :
    Option (String × List (ℤ × ℤ × ℤ × ℤ)) :=
  match read_csv_position file xyz_format with
  | ReadResult.ok info => some (output_filename, pasted_boxes h info imgs scale crop)
  | _ => none

/-! Helper lemmas about the polar projection at the three axis angles. -/

theorem pol2cart_theta_zero (r : ℝ) (c : ℝ × ℝ) :
    pol2cart (0, r) c = (c.1, c.2 - r) := by
  have h : ((0:ℝ) - 90) * Real.pi / 180 = -(Real.pi / 2) := by ring
  show (r * Real.cos ((0 - 90) * Real.pi / 180) + c.1,
        r * Real.sin ((0 - 90) * Real.pi / 180) + c.2) = (c.1, c.2 - r)
  rw [h, Real.cos_neg, Real.sin_neg, Real.cos_pi_div_two, Real.sin_pi_div_two]
  simp [Prod.ext_iff]
  ring

theorem pol2cart_theta_ninety (r : ℝ) (c : ℝ × ℝ) :
    pol2cart (90, r) c = (c.1 + r, c.2) := by
  have h : ((90:ℝ) - 90) * Real.pi / 180 = 0 := by ring
  show (r * Real.cos ((90 - 90) * Real.pi / 180) + c.1,
        r * Real.sin ((90 - 90) * Real.pi / 180) + c.2) = (c.1 + r, c.2)
  rw [h, Real.cos_zero, Real.sin_zero]
  simp [Prod.ext_iff]
  ring

theorem pol2cart_theta_oneeighty (r : ℝ) (c : ℝ × ℝ) :
    pol2cart (180, r) c = (c.1, c.2 + r) := by
  have h : ((180:ℝ) - 90) * Real.pi / 180 = Real.pi / 2 := by ring
  show (r * Real.cos ((180 - 90) * Real.pi / 180) + c.1,
        r * Real.sin ((180 - 90) * Real.pi / 180) + c.2) = (c.1, c.2 + r)
  rw [h, Real.cos_pi_div_two, Real.sin_pi_div_two]
  simp [Prod.ext_iff]
  ring

/-- C2: pol2cart at angle 0 returns the center shifted by (0, -r) (angle 0
points up), at angle 90 the center shifted by (r, 0), and in general is the
pure total function x = r * cos((angle - 90) * pi / 180),
y = r * sin((angle - 90) * pi / 180), translated by the center. -/
theorem c2_pol2cart_projection (theta r : ℝ) (c : ℝ × ℝ) :
    pol2cart (0, r) c = (c.1, c.2 - r) ∧
    pol2cart (90, r) c = (c.1 + r, c.2) ∧
    pol2cart (theta, r) c =
      (r * Real.cos ((theta - 90) * Real.pi / 180) + c.1,
       r * Real.sin ((theta - 90) * Real.pi / 180) + c.2) :=
  ⟨pol2cart_theta_zero r c, pol2cart_theta_ninety r c, rfl⟩

/-- C7: for a non-empty crop specification [L, T, R, D] the box applied to a
w-by-h source image is exactly (L, T, w - R, h - D) (and the crop branch of
the compositing loop indeed applies it); in particular [0, 200, 0, 0] on a
100x300 image yields the box (0, 200, 100, 300), a 100x100 result. -/
theorem c7_crop_box (L T R D w h : ℤ) :
    ([L, T, R, D] ≠ ([] : List ℤ)) ∧
    crop_box [L, T, R, D] (w, h) = (L, T, w - R, h - D) ∧
    processed_size [L, T, R, D] 1 (w, h) =
      cropped_size (crop_box [L, T, R, D] (w, h)) ∧
    crop_box [0, 200, 0, 0] (100, 300) = (0, 200, 100, 300) ∧
    cropped_size (crop_box [0, 200, 0, 0] (100, 300)) = (100, 100) := by
  refine ⟨by simp, ?_, ?_, by norm_num [crop_box], by norm_num [crop_box, cropped_size]⟩
  · simp [crop_box]
  · simp [processed_size]

/-! Concrete data for the end-to-end placement check: two location records
at theta = 0 and theta = 180 with phi = 0 and radius 1, and a single-pixel
image for each. -/

def locTheta0 : Record :=
  [("sph_theta", Value.num 0), ("sph_phi", Value.num 0), ("sph_radius", Value.num 1)]

def locTheta180 : Record :=
  [("sph_theta", Value.num 180), ("sph_phi", Value.num 0), ("sph_radius", Value.num 1)]

theorem canvas_size_1000 : canvas_size 1000 = (2500, 2500) := by
  have h : truncInt (2.5 * 1000) = 2500 := by
    unfold truncInt
    rw [if_pos (by norm_num : (0:ℝ) ≤ 2.5 * 1000)]
    norm_num
  simp [canvas_size, h]

theorem canvas_center_1000 : canvas_center 1000 = (1250, 1250) := by
  unfold canvas_center
  rw [canvas_size_1000]
  have h : truncInt ((0.5 : ℝ) * 2500) = 1250 := by
    unfold truncInt
    rw [if_pos (by norm_num : (0:ℝ) ≤ (0.5 : ℝ) * 2500)]
    norm_num
  push_cast
  simp [h]

theorem electrode_point_theta0 : electrode_point 1000 locTheta0 = (1250, 250) := by
  unfold electrode_point
  rw [canvas_center_1000]
  have ht : getNumD locTheta0 "sph_theta" = 0 := rfl
  have hp : getNumD locTheta0 "sph_phi" = 0 := rfl
  have hr : getNumD locTheta0 "sph_radius" = 1 := rfl
  rw [ht, hp, hr]
  have hrad : (1000:ℝ) * 1 * Real.cos (0 * Real.pi / 180) = 1000 := by
    rw [zero_mul, zero_div, Real.cos_zero]; ring
  rw [hrad, pol2cart_theta_zero]
  norm_num

theorem electrode_point_theta180 : electrode_point 1000 locTheta180 = (1250, 2250) := by
  unfold electrode_point
  rw [canvas_center_1000]
  have ht : getNumD locTheta180 "sph_theta" = 180 := rfl
  have hp : getNumD locTheta180 "sph_phi" = 0 := rfl
  have hr : getNumD locTheta180 "sph_radius" = 1 := rfl
  rw [ht, hp, hr]
  have hrad : (1000:ℝ) * 1 * Real.cos (0 * Real.pi / 180) = 1000 := by
    rw [zero_mul, zero_div, Real.cos_zero]; ring
  rw [hrad, pol2cart_theta_oneeighty]
  norm_num

theorem paste_box_at_top : paste_box (1250, 250) (1, 1) = (1250, 250, 1251, 251) := by
  have h1 : truncInt (1250:ℝ) = 1250 := by
    unfold truncInt
    rw [if_pos (by norm_num : (0:ℝ) ≤ 1250)]
    norm_num
  have h2 : truncInt (250:ℝ) = 250 := by
    unfold truncInt
    rw [if_pos (by norm_num : (0:ℝ) ≤ 250)]
    norm_num
  simp [paste_box, h1, h2]

theorem paste_box_at_bottom : paste_box (1250, 2250) (1, 1) = (1250, 2250, 1251, 2251) := by
  have h1 : truncInt (1250:ℝ) = 1250 := by
    unfold truncInt
    rw [if_pos (by norm_num : (0:ℝ) ≤ 1250)]
    norm_num
  have h2 : truncInt (2250:ℝ) = 2250 := by
    unfold truncInt
    rw [if_pos (by norm_num : (0:ℝ) ≤ 2250)]
    norm_num
  simp [paste_box, h1, h2]

/-- C6: with two location records at theta 0 and 180 (phi 0, radius 1),
head radius 1000 pixels and a single-pixel image for each, the canvas is
2500x2500 with center (1250, 1250) and the two paste boxes put the image
centers at pixels (1250, 250) and (1250, 2250), i.e. canvas center plus and
minus (0, 1000). -/
theorem c6_end_to_end_placement :
    canvas_size 1000 = (2500, 2500) ∧
    canvas_center 1000 = (1250, 1250) ∧
    pasted_boxes 1000 [locTheta0, locTheta180] [(1, 1), (1, 1)] 1 [] =
      [(1250, 250, 1251, 251), (1250, 2250, 1251, 2251)] := by
  refine ⟨canvas_size_1000, canvas_center_1000, ?_⟩
  have hps : processed_size [] 1 ((1:ℤ), (1:ℤ)) = ((1:ℤ), (1:ℤ)) := by
    simp [processed_size]
  show [paste_box (electrode_point 1000 locTheta0) (processed_size [] 1 ((1:ℤ), (1:ℤ))),
        paste_box (electrode_point 1000 locTheta180) (processed_size [] 1 ((1:ℤ), (1:ℤ)))] = _
  rw [hps, electrode_point_theta0, electrode_point_theta180,
    paste_box_at_top, paste_box_at_bottom]

/-! Helper lemmas about record lookup and the branches of
read_csv_position. -/

theorem rget_rset_self (r : Record) (k : String) (v : Value) :
    rget (rset r k v) k = some v := by
  simp [rget, rset, List.lookup]

theorem rget_rset_ne (r : Record) (k k' : String) (v : Value) (h : (k == k') = false) :
    rget (rset r k' v) k = rget r k := by
  simp [rget, rset, List.lookup, h]

theorem hasKey_rset (r : Record) (k k' : String) (v : Value) :
    hasKey (rset r k' v) k = (k == k' || hasKey r k) := by
  cases hkk : (k == k') with
  | false => simp [hasKey, rget_rset_ne r k k' v hkk, hkk]
  | true =>
      have : k = k' := by simpa using hkk
      subst this
      simp [hasKey, rget_rset_self]

theorem getNumD_eq_of_rget {r : Record} {k : String} {a : ℝ}
    (h : rget r k = some (Value.num a)) : getNumD r k = a := by
  unfold getNumD
  rw [h]

theorem read_of_no_header (file : CsvFile) (fmt : String)
    (hh : file.hasHeader = false) :
    read_csv_position file fmt = ReadResult.none_result := by
  simp [read_csv_position, hh]

theorem read_of_empty_rows (file : CsvFile) (fmt : String)
    (hh : file.hasHeader = true) (hr : file.rows = []) :
    read_csv_position file fmt = ReadResult.index_error := by
  simp [read_csv_position, hh, hr]

theorem read_of_spherical (file : CsvFile) (fmt : String)
    (first : Record) (rest : List Record)
    (hh : file.hasHeader = true)
    (hinfo : file.rows.map (buildRecord (headerTuples file.headers)) = first :: rest)
    (hph : hasKey first "sph_phi" = true)
    (hth : hasKey first "sph_theta" = true) :
    read_csv_position file fmt =
      (if hasKey first "sph_radius" = false then
        ReadResult.ok ((first :: rest).map (fun r => rset r "sph_radius" (Value.num 1)))
      else ReadResult.ok (first :: rest)) := by
  simp only [read_csv_position, hh]
  rw [if_neg (by simp)]
  rw [hinfo]
  simp only [hph, hth, Bool.and_self, if_true]
  cases hr : hasKey first "sph_radius" <;> simp [hr]

theorem read_of_cartesian (file : CsvFile) (fmt : String)
    (first : Record) (rest : List Record)
    (hh : file.hasHeader = true)
    (hinfo : file.rows.map (buildRecord (headerTuples file.headers)) = first :: rest)
    (hsph : (hasKey first "sph_phi" && hasKey first "sph_theta") = false)
    (hX : hasKey first "X" = true) (hY : hasKey first "Y" = true)
    (hZ : hasKey first "Z" = true) :
    read_csv_position file fmt =
      ReadResult.ok ((first :: rest).map (convertCart fmt)) := by
  simp only [read_csv_position, hh]
  rw [if_neg (by simp)]
  rw [hinfo]
  simp [hsph, hX, hY, hZ]

theorem read_of_unrecognized (file : CsvFile) (fmt : String)
    (first : Record) (rest : List Record)
    (hh : file.hasHeader = true)
    (hinfo : file.rows.map (buildRecord (headerTuples file.headers)) = first :: rest)
    (hsph : (hasKey first "sph_phi" && hasKey first "sph_theta") = false)
    (hcart : (hasKey first "X" && hasKey first "Y" && hasKey first "Z") = false) :
    read_csv_position file fmt = ReadResult.none_result := by
  simp only [read_csv_position, hh]
  rw [if_neg (by simp)]
  rw [hinfo]
  simp [hsph, hcart]

theorem convertCart_sph_radius (fmt : String) (r : Record) :
    rget (convertCart fmt r) "sph_radius" = some (Value.num 1) := by
  unfold convertCart
  exact rget_rset_self _ _ _

theorem convertCart_sph_phi (fmt : String) (r : Record) (x y z : ℝ)
    (hx : rget r "X" = some (Value.num x))
    (hy : rget r "Y" = some (Value.num y))
    (hz : rget r "Z" = some (Value.num z)) :
    rget (convertCart fmt r) "sph_phi" =
      some (Value.num (atan2 z (Real.sqrt (x ^ 2 + y ^ 2)) * 180 / Real.pi)) := by
  unfold convertCart
  rw [rget_rset_ne _ _ _ _ (by decide), rget_rset_self,
    getNumD_eq_of_rget hx, getNumD_eq_of_rget hy, getNumD_eq_of_rget hz]

theorem convertCart_sph_theta_default (r : Record) (x y : ℝ)
    (hx : rget r "X" = some (Value.num x))
    (hy : rget r "Y" = some (Value.num y)) :
    rget (convertCart "default" r) "sph_theta" =
      some (Value.num (atan2 x y * 180 / Real.pi)) := by
  unfold convertCart
  rw [rget_rset_ne _ _ _ _ (by decide), rget_rset_ne _ _ _ _ (by decide)]
  rw [if_pos rfl, rget_rset_self, getNumD_eq_of_rget hx, getNumD_eq_of_rget hy]

theorem convertCart_sph_theta_eeglab (r : Record) (x y : ℝ)
    (hx : rget r "X" = some (Value.num x))
    (hy : rget r "Y" = some (Value.num y)) :
    rget (convertCart "EEGLab" r) "sph_theta" =
      some (Value.num (atan2 y x * 180 / Real.pi)) := by
  unfold convertCart
  rw [rget_rset_ne _ _ _ _ (by decide), rget_rset_ne _ _ _ _ (by decide)]
  rw [if_neg (by decide), if_pos rfl, rget_rset_self,
    getNumD_eq_of_rget hx, getNumD_eq_of_rget hy]

theorem convertCart_sph_theta_other (fmt : String) (r : Record)
    (h1 : fmt ≠ "default") (h2 : fmt ≠ "EEGLab") :
    rget (convertCart fmt r) "sph_theta" = rget r "sph_theta" := by
  unfold convertCart
  rw [rget_rset_ne _ _ _ _ (by decide), rget_rset_ne _ _ _ _ (by decide)]
  rw [if_neg h1, if_neg h2]

/-- A record built from a data row has a key exactly when some retained
header tuple carries that name; in particular the key set does not depend
on the row, so the first-record column checks hold for every record. -/
theorem hasKey_buildRecord_aux (hts : List (Nat × String)) (row : List Value)
    (d : Record) (k : String) :
    hasKey (hts.foldl (fun d ht => rset d ht.2 (row.getD ht.1 (Value.str ""))) d) k =
      (hts.any (fun ht => ht.2 == k) || hasKey d k) := by
  induction hts generalizing d with
  | nil => simp
  | cons ht hts ih =>
      simp only [List.foldl_cons, List.any_cons, ih, hasKey_rset]
      cases h1 : (ht.2 == k) with
      | false =>
          have : (k == ht.2) = false := by
            simp only [beq_eq_false_iff_ne] at h1 ⊢
            exact fun h => h1 h.symm
          simp [this]
      | true =>
          have : (k == ht.2) = true := by
            simp only [beq_iff_eq] at h1 ⊢
            exact h1.symm
          simp [this]

theorem hasKey_buildRecord (hts : List (Nat × String)) (row : List Value) (k : String) :
    hasKey (buildRecord hts row) k = hts.any (fun ht => ht.2 == k) := by
  unfold buildRecord
  rw [hasKey_buildRecord_aux]
  simp [hasKey, rget]

/-- A sample Cartesian record holding the raw point (x, y, z). -/
def mkXYZ (x y z : ℝ) : Record :=
  [("X", Value.num x), ("Y", Value.num y), ("Z", Value.num z)]

/-- C5: the axis-convention switch is a pure swap of the first two
coordinates: the sph_theta the Cartesian conversion computes for (x, y, z)
under the default convention equals the one it computes for (y, x, z) under
the EEGLab convention, both being atan2(x, y) * 180 / pi. -/
theorem c5_axis_convention_swap (x y z : ℝ) :
    rget (convertCart "default" (mkXYZ x y z)) "sph_theta" =
      rget (convertCart "EEGLab" (mkXYZ y x z)) "sph_theta" ∧
    rget (convertCart "default" (mkXYZ x y z)) "sph_theta" =
      some (Value.num (atan2 x y * 180 / Real.pi)) := by
  have h1 := convertCart_sph_theta_default (mkXYZ x y z) x y rfl rfl
  have h2 := convertCart_sph_theta_eeglab (mkXYZ y x z) y x rfl rfl
  exact ⟨h1.trans h2.symm, h1⟩

/-- C1: when the position file parses as Cartesian (header row present,
first record carrying the X, Y, Z columns and not both spherical columns)
and the axis convention is one of the two known ones, every record of the
returned list carries sph_theta = atan2(X, Y) * 180 / pi under the default
convention and atan2(Y, X) * 180 / pi under EEGLab,
sph_phi = atan2(Z, sqrt(X^2 + Y^2)) * 180 / pi, and sph_radius = 1. -/
theorem c1_cartesian_fields (file : CsvFile) (fmt : String)
    (first : Record) (rest : List Record) (row : List Value) (x y z : ℝ)
    (hh : file.hasHeader = true)
    (hinfo : file.rows.map (buildRecord (headerTuples file.headers)) = first :: rest)
    (hsph : (hasKey first "sph_phi" && hasKey first "sph_theta") = false)
    (hX : hasKey first "X" = true) (hY : hasKey first "Y" = true)
    (hZ : hasKey first "Z" = true)
    (hrow : row ∈ file.rows)
    (hx : rget (buildRecord (headerTuples file.headers) row) "X" = some (Value.num x))
    (hy : rget (buildRecord (headerTuples file.headers) row) "Y" = some (Value.num y))
    (hz : rget (buildRecord (headerTuples file.headers) row) "Z" = some (Value.num z))
    (hfmt : fmt = "default" ∨ fmt = "EEGLab") :
    convertCart fmt (buildRecord (headerTuples file.headers) row) ∈
      okRecords (read_csv_position file fmt) ∧
    rget (convertCart fmt (buildRecord (headerTuples file.headers) row)) "sph_theta" =
      some (Value.num ((if fmt = "default" then atan2 x y else atan2 y x) * 180 / Real.pi)) ∧
    rget (convertCart fmt (buildRecord (headerTuples file.headers) row)) "sph_phi" =
      some (Value.num (atan2 z (Real.sqrt (x ^ 2 + y ^ 2)) * 180 / Real.pi)) ∧
    rget (convertCart fmt (buildRecord (headerTuples file.headers) row)) "sph_radius" =
      some (Value.num 1) := by
  have hread := read_of_cartesian file fmt first rest hh hinfo hsph hX hY hZ
  refine ⟨?_, ?_, convertCart_sph_phi fmt _ x y z hx hy hz, convertCart_sph_radius fmt _⟩
  · rw [hread]
    show _ ∈ (first :: rest).map (convertCart fmt)
    rw [← hinfo, List.map_map]
    exact List.mem_map_of_mem _ hrow
  · rcases hfmt with h | h <;> subst h
    · rw [if_pos rfl]
      exact convertCart_sph_theta_default _ x y hx hy
    · rw [if_neg (by decide)]
      exact convertCart_sph_theta_eeglab _ x y hx hy

/-- A concrete Cartesian position file: headers X, Y, Z and the single data
row (1, 0, 0). -/
def fileCart : CsvFile :=
  ⟨true, ["X", "Y", "Z"], [[Value.num 1, Value.num 0, Value.num 0]]⟩

/-- Witness for C1 on fileCart with the default convention. -/
theorem c1_cartesian_fields_witness :
    convertCart "default" (buildRecord (headerTuples fileCart.headers)
        [Value.num 1, Value.num 0, Value.num 0]) ∈
      okRecords (read_csv_position fileCart "default") ∧
    rget (convertCart "default" (buildRecord (headerTuples fileCart.headers)
        [Value.num 1, Value.num 0, Value.num 0])) "sph_radius" =
      some (Value.num 1) :=
  have h := c1_cartesian_fields fileCart "default"
    (buildRecord (headerTuples fileCart.headers) [Value.num 1, Value.num 0, Value.num 0])
    [] [Value.num 1, Value.num 0, Value.num 0] 1 0 0
    rfl rfl rfl rfl rfl rfl (by simp [fileCart]) rfl rfl rfl (Or.inl rfl)
  ⟨h.1, h.2.2.2⟩

theorem rget_eq_none_of_hasKey_false {r : Record} {k : String}
    (h : hasKey r k = false) : rget r k = none := by
  cases h' : rget r k with
  | none => rfl
  | some v =>
      unfold hasKey at h
      rw [h'] at h
      simp at h

/-- C3: read_csv_position takes its None-returning exit (the FormatError of
the spec) exactly when no header row was detected or when the first parsed
record carries neither the spherical column set nor the Cartesian one; the
failure makes plot_in_topoplot abort with no output written. -/
theorem c3_format_error (file : CsvFile) (fmt : String) (hrad : ℝ)
    (imgs : List (ℤ × ℤ)) (out : String) (scale : ℝ) (crop : List ℤ) :
    (read_csv_position file fmt = ReadResult.none_result ↔
      (file.hasHeader = false ∨
        ∃ first rest,
          file.rows.map (buildRecord (headerTuples file.headers)) = first :: rest ∧
          ¬(hasKey first "sph_phi" = true ∧ hasKey first "sph_theta" = true) ∧
          ¬(hasKey first "X" = true ∧ hasKey first "Y" = true ∧
            hasKey first "Z" = true))) ∧
    (read_csv_position file fmt = ReadResult.none_result →
      plot_in_topoplot hrad file imgs fmt out scale crop = none) := by
  constructor
  · constructor
    · intro hnone
      by_cases hh : file.hasHeader = true
      · right
        cases hinfo : file.rows.map (buildRecord (headerTuples file.headers)) with
        | nil =>
            rw [read_of_empty_rows file fmt hh (List.map_eq_nil_iff.mp hinfo)] at hnone
            cases hnone
        | cons first rest =>
            refine ⟨first, rest, rfl, ?_, ?_⟩
            · rintro ⟨hph, hth⟩
              rw [read_of_spherical file fmt first rest hh hinfo hph hth] at hnone
              by_cases hsr : hasKey first "sph_radius" = false
              · rw [if_pos hsr] at hnone; cases hnone
              · rw [if_neg hsr] at hnone; cases hnone
            · rintro ⟨hX, hY, hZ⟩
              by_cases hs : (hasKey first "sph_phi" && hasKey first "sph_theta") = true
              · rcases Bool.and_eq_true_iff.mp hs with ⟨hph, hth⟩
                rw [read_of_spherical file fmt first rest hh hinfo hph hth] at hnone
                by_cases hsr : hasKey first "sph_radius" = false
                · rw [if_pos hsr] at hnone; cases hnone
                · rw [if_neg hsr] at hnone; cases hnone
              · have hs' := Bool.eq_false_iff.mpr (fun hc => hs hc)
                rw [read_of_cartesian file fmt first rest hh hinfo
                  (by simpa using hs') hX hY hZ] at hnone
                cases hnone
      · exact Or.inl (Bool.eq_false_iff.mpr hh)
    · intro hcond
      by_cases hh : file.hasHeader = true
      · rcases hcond with hh' | ⟨first, rest, hinfo, hs, hc⟩
        · rw [hh] at hh'; cases hh'
        · have hsb : (hasKey first "sph_phi" && hasKey first "sph_theta") = false := by
            cases h1 : hasKey first "sph_phi" <;> cases h2 : hasKey first "sph_theta" <;>
              simp_all
          have hcb : (hasKey first "X" && hasKey first "Y" && hasKey first "Z") = false := by
            cases h1 : hasKey first "X" <;> cases h2 : hasKey first "Y" <;>
              cases h3 : hasKey first "Z" <;> simp_all
          exact read_of_unrecognized file fmt first rest hh hinfo hsb hcb
      · exact read_of_no_header file fmt (Bool.eq_false_iff.mpr hh)
  · intro hnone
    simp [plot_in_topoplot, hnone]

/-- A concrete position file with a header row and no recognized coordinate
columns. -/
def fileNoCoords : CsvFile :=
  ⟨true, ["name", "value"], [[Value.str "Cz", Value.num 3]]⟩

/-- Witness for C3: on a file whose only columns are name and value the
reader takes the None exit and the pipeline writes nothing. -/
theorem c3_format_error_witness :
    read_csv_position fileNoCoords "default" = ReadResult.none_result ∧
    plot_in_topoplot 1000 fileNoCoords [] "default" "out.png" 1 [] = none := by
  have h := c3_format_error fileNoCoords "default" 1000 [] "out.png" 1 []
  have hnone : read_csv_position fileNoCoords "default" = ReadResult.none_result := by
    apply h.1.mpr
    right
    refine ⟨buildRecord (headerTuples fileNoCoords.headers)
      [Value.str "Cz", Value.num 3], [], rfl, ?_, ?_⟩
    · rintro ⟨hp, _⟩
      exact absurd hp (by decide)
    · rintro ⟨hx, _⟩
      exact absurd hx (by decide)
  exact ⟨hnone, h.2 hnone⟩

/-- C4: when the first record of a spherical position file has sph_theta
and sph_phi but no sph_radius column, every returned record gets
sph_radius = 1. -/
theorem c4_radius_default (file : CsvFile) (fmt : String)
    (first : Record) (rest : List Record)
    (hh : file.hasHeader = true)
    (hinfo : file.rows.map (buildRecord (headerTuples file.headers)) = first :: rest)
    (hth : hasKey first "sph_theta" = true)
    (hph : hasKey first "sph_phi" = true)
    (hnor : hasKey first "sph_radius" = false) :
    ∃ l, read_csv_position file fmt = ReadResult.ok l ∧
      ∀ r ∈ l, rget r "sph_radius" = some (Value.num 1) := by
  refine ⟨(first :: rest).map (fun r => rset r "sph_radius" (Value.num 1)), ?_, ?_⟩
  · rw [read_of_spherical file fmt first rest hh hinfo hph hth, if_pos hnor]
  · intro r hr
    rcases List.mem_map.mp hr with ⟨r0, _, rfl⟩
    exact rget_rset_self _ _ _

/-- A concrete spherical position file without a sph_radius column. -/
def fileSph : CsvFile :=
  ⟨true, ["sph_theta", "sph_phi"], [[Value.num 0, Value.num 0]]⟩

/-- Witness for C4 on fileSph. -/
theorem c4_radius_default_witness :
    ∃ l, read_csv_position fileSph "default" = ReadResult.ok l ∧
      ∀ r ∈ l, rget r "sph_radius" = some (Value.num 1) :=
  c4_radius_default fileSph "default"
    (buildRecord (headerTuples fileSph.headers) [Value.num 0, Value.num 0]) []
    rfl rfl rfl rfl rfl

/-- C10: a position file with a detected header row and no data rows does
not yield an empty record list: the first-record column check indexes a
record that does not exist, so the read raises IndexError rather than
returning anything. -/
theorem c10_empty_rows (file : CsvFile) (fmt : String)
    (hh : file.hasHeader = true) (hr : file.rows = []) :
    read_csv_position file fmt = ReadResult.index_error ∧
    ∀ l, read_csv_position file fmt ≠ ReadResult.ok l := by
  have h := read_of_empty_rows file fmt hh hr
  refine ⟨h, fun l hl => ?_⟩
  rw [h] at hl
  cases hl

/-- A concrete position file with headers and zero data rows. -/
def fileHeaderOnly : CsvFile := ⟨true, ["X", "Y", "Z"], []⟩

/-- Witness for C10 on fileHeaderOnly. -/
theorem c10_empty_rows_witness :
    read_csv_position fileHeaderOnly "default" = ReadResult.index_error ∧
    ∀ l, read_csv_position fileHeaderOnly "default" ≠ ReadResult.ok l :=
  c10_empty_rows fileHeaderOnly "default" rfl rfl

/-- A Cartesian position file that additionally carries its own sph_theta
column (and no sph_phi), with the unknown axis convention in mind. -/
def fileCartTheta : CsvFile :=
  ⟨true, ["X", "Y", "Z", "sph_theta"],
    [[Value.num 0, Value.num 0, Value.num 0, Value.num 7]]⟩

/-- C9 as stated is false: this file has X, Y, Z in its first record and is
parsed with the empty axis convention, yet the single returned record does
contain a sph_theta field (the one carried by the file itself). -/
theorem c9_counterexample :
    (okRecords (read_csv_position fileCartTheta "")).length = 1 ∧
    hasKey ((okRecords (read_csv_position fileCartTheta "")).headD []) "sph_theta" =
      true :=
  ⟨rfl, rfl⟩

/-- C9 (amended): for every Cartesian position file whose records do not
themselves carry a sph_theta column, parsing with an axis convention other
than default and EEGLab returns records that contain sph_phi and sph_radius
but no sph_theta, so the rendering lookup of sph_theta has no value. -/
theorem c9_unknown_convention (file : CsvFile) (fmt : String)
    (first : Record) (rest : List Record)
    (hh : file.hasHeader = true)
    (hinfo : file.rows.map (buildRecord (headerTuples file.headers)) = first :: rest)
    (hX : hasKey first "X" = true) (hY : hasKey first "Y" = true)
    (hZ : hasKey first "Z" = true)
    (hnth : hasKey first "sph_theta" = false)
    (h1 : fmt ≠ "default") (h2 : fmt ≠ "EEGLab") :
    ∃ l, read_csv_position file fmt = ReadResult.ok l ∧
      ∀ r ∈ l, hasKey r "sph_phi" = true ∧ hasKey r "sph_radius" = true ∧
        rget r "sph_theta" = none := by
  have hsph : (hasKey first "sph_phi" && hasKey first "sph_theta") = false := by
    rw [hnth]
    simp
  refine ⟨(first :: rest).map (convertCart fmt),
    read_of_cartesian file fmt first rest hh hinfo hsph hX hY hZ, ?_⟩
  intro r hr
  rcases List.mem_map.mp hr with ⟨r0, hr0, rfl⟩
  have hr0keys : hasKey r0 "sph_theta" = false := by
    rw [← hinfo] at hr0
    rcases List.mem_map.mp hr0 with ⟨row, _, rfl⟩
    cases hrows : file.rows with
    | nil =>
        rw [hrows] at hinfo
        cases hinfo
    | cons row0 rowtl =>
        rw [hrows] at hinfo
        simp only [List.map_cons] at hinfo
        have hfirst : buildRecord (headerTuples file.headers) row0 = first :=
          (List.cons.injEq _ _ _ _ ▸ hinfo).1
        rw [hasKey_buildRecord, ← hasKey_buildRecord _ row0, hfirst, hnth]
  refine ⟨?_, ?_, ?_⟩
  · unfold convertCart
    rw [hasKey_rset, hasKey_rset]
    simp
  · unfold convertCart
    rw [hasKey_rset]
    simp
  · rw [convertCart_sph_theta_other fmt r0 h1 h2]
    exact rget_eq_none_of_hasKey_false hr0keys

/-- A Cartesian position file with only X, Y, Z columns. -/
def fileCartPlain : CsvFile :=
  ⟨true, ["X", "Y", "Z"], [[Value.num 0, Value.num 1, Value.num 0]]⟩

/-- Witness for the amended C9 on fileCartPlain with the empty axis
convention the example driver passes. -/
theorem c9_unknown_convention_witness :
    ∃ l, read_csv_position fileCartPlain "" = ReadResult.ok l ∧
      ∀ r ∈ l, hasKey r "sph_phi" = true ∧ hasKey r "sph_radius" = true ∧
        rget r "sph_theta" = none :=
  c9_unknown_convention fileCartPlain ""
    (buildRecord (headerTuples fileCartPlain.headers)
      [Value.num 0, Value.num 1, Value.num 0]) []
    rfl rfl rfl rfl rfl rfl (by decide) (by decide)

theorem zip_take_left {α β : Type} (l : List α) (l' : List β) :
    l.zip l' = (l.take l'.length).zip l' := by
  induction l generalizing l' with
  | nil => simp
  | cons a l ih =>
      cases l' with
      | nil => simp
      | cons b l' => simp [List.zip_cons_cons, ih l']

/-- C8: when the image list is shorter than the location list, the
compositing pass processes exactly the overlapping prefix of (location,
image) pairs in order and raises no error for the mismatch, while the
marker pass still computes a point for every location. -/
theorem c8_zip_truncation (h : ℝ) (info : List Record) (imgs : List (ℤ × ℤ))
    (scale : ℝ) (crop : List ℤ) (hlen : imgs.length < info.length) :
    pasted_boxes h info imgs scale crop =
      pasted_boxes h (info.take imgs.length) imgs scale crop ∧
    (pasted_boxes h info imgs scale crop).length = imgs.length ∧
    (marker_points h info).length = info.length := by
  refine ⟨?_, ?_, by simp [marker_points]⟩
  · unfold pasted_boxes
    rw [← zip_take_left]
  · unfold pasted_boxes
    rw [List.length_map, List.length_zip]
    exact min_eq_right (Nat.le_of_lt hlen)

/-- Witness for C8: three locations, one image. -/
theorem c8_zip_truncation_witness :
    pasted_boxes 1000 [locTheta0, locTheta180, locTheta0] [(1, 1)] 1 [] =
      pasted_boxes 1000 ([locTheta0, locTheta180, locTheta0].take 1) [(1, 1)] 1 [] ∧
    (pasted_boxes 1000 [locTheta0, locTheta180, locTheta0] [(1, 1)] 1 []).length = 1 ∧
    (marker_points 1000 [locTheta0, locTheta180, locTheta0]).length = 3 :=
  c8_zip_truncation 1000 [locTheta0, locTheta180, locTheta0] [(1, 1)] 1 []
    (by decide)

end Topoplot
